import Mathlib

/-!
Verification development for the rpscrape repository.

The definitions below are shallow embeddings of the Python source:

* `src/scripts/rpscrape.py` — the original interactive scraper: fractional
  odds conversion (`fraction_to_decimal`), beaten-distance extraction and the
  glyph-replacement chain inside `scrape_races` (lines 683-725), the
  prize/btn/ovr_btn backfill logic (lines 668-731) and the `zip`-based row
  emission (lines 855-871).
* `src/RPScraper/scripts/rpscrape.py` — the orchestrator: the failure
  analyzers `is_likely_rate_limited` and `analyze_error_pattern`, and the
  `scrape_races` loop with its exponential-backoff state.

Python string operations are re-implemented structurally over `List Char`
(so that concrete instances reduce): `pyReplace` models `str.replace`,
`strContains` models the `in` operator, `pyLower` models `str.lower`,
`pySplit` models `str.split` with a one-character separator, and
`pyStrip`/`pyStripChars` model `str.strip`.  Python float arithmetic on the
small odds/percentage values involved is modelled exactly over `ℚ`.
-/

namespace RPScrape

/-! ## Python string primitives -/

/-- Substring test: `hasSubstr s pat` models Python `pat in s` on char lists. -/
def hasSubstr : List Char → List Char → Bool
  | [], pat => pat.isEmpty
  | c :: rest, pat => pat.isPrefixOf (c :: rest) || hasSubstr rest pat

/-- Model of Python `pat in s` for strings. -/
def strContains (s pat : String) : Bool :=
  hasSubstr s.data pat.data

/-- Model of Python `str.lower()` (ASCII case folding, as used here). -/
def pyLower (s : String) : String :=
  String.mk (s.data.map Char.toLower)

/-- Fuel-bounded replace-all kernel: one unit of fuel per input character. -/
def replaceAux (pat rep : List Char) : Nat → List Char → List Char
  | 0, s => s
  | _ + 1, [] => []
  | fuel + 1, c :: rest =>
      if pat.isPrefixOf (c :: rest) then
        rep ++ replaceAux pat rep fuel (List.drop pat.length (c :: rest))
      else
        c :: replaceAux pat rep fuel rest

/-- Model of Python `s.replace(pat, rep)` (replace all occurrences, left to
right); the patterns used in the source are never empty. -/
def pyReplace (s pat rep : String) : String :=
  String.mk (replaceAux pat.data rep.data s.data.length s.data)

/-- Splits a char list on a one-character separator, keeping empty parts,
as Python `str.split(sep)` does. -/
def splitOnChar (sep : Char) : List Char → List (List Char)
  | [] => [[]]
  | c :: rest =>
      let r := splitOnChar sep rest
      if c = sep then [] :: r
      else (c :: r.headD []) :: r.tail

/-- Model of Python `s.split(sep)` for a one-character separator. -/
def pySplit (s : String) (sep : Char) : List String :=
  (splitOnChar sep s.data).map String.mk

/-- Drops leading characters satisfying `p`. -/
def stripLeft (p : Char → Bool) : List Char → List Char
  | [] => []
  | c :: rest => if p c then stripLeft p rest else c :: rest

/-- Model of Python `s.strip()` (drop whitespace at both ends). -/
def pyStrip (s : String) : String :=
  String.mk ((stripLeft Char.isWhitespace ((stripLeft Char.isWhitespace s.data).reverse)).reverse)

/-- Model of Python `s.strip(chars)` (drop characters of the set at both ends). -/
def pyStripChars (s : String) (chars : List Char) : String :=
  String.mk ((stripLeft (fun c => chars.contains c) ((stripLeft (fun c => chars.contains c) s.data).reverse)).reverse)

/-! ## Numeric parsing and fixed-point formatting

`src/scripts/rpscrape.py` converts fractional odds with Python `float()` and
renders them with `'{0:.2f}'.format`.  The numerals that reach `float()` here
are nonnegative decimal numerals (`"9"`, `"2"`, `"5.5"`, ...); we model that
subset exactly over `ℚ`, and model the 2-decimal rendering with
round-half-to-even, which is what `format` performs on the exactly
representable values involved. -/

/-- Value of a decimal digit character. -/
def digitVal? (c : Char) : Option Nat :=
  if c.isDigit then some (c.toNat - 48) else none

/-- Value of a nonempty all-digit numeral. -/
def digitsVal? (cs : List Char) : Option Nat :=
  if cs.isEmpty then none
  else cs.foldl (fun acc c => acc.bind (fun a => (digitVal? c).map (fun d => 10 * a + d))) (some 0)

/-- Model of Python `float()` on the nonnegative decimal numerals used by the
odds parser: digits with an optional fractional part. -/
def parseFloat? (s : String) : Option ℚ :=
  match pySplit s '.' with
  | [i] => (digitsVal? i.data).map (fun n => (n : ℚ))
  | [i, f] => do
      let a ← digitsVal? i.data
      let b ← digitsVal? f.data
      pure ((a : ℚ) + (b : ℚ) / (10 : ℚ) ^ f.length)
  | _ => none

/-- Rounds to the nearest integer, ties to even (Python `round`/`format`
behaviour on exactly representable values). -/
def roundHalfEven (q : ℚ) : ℤ :=
  let f : ℤ := ⌊q⌋
  let r : ℚ := q - f
  if r < 1/2 then f
  else if 1/2 < r then f + 1
  else if f % 2 = 0 then f else f + 1

/-- Model of Python `'{0:.2f}'.format(q)` for the nonnegative values produced
by the odds conversion. -/
def formatFixed2 (q : ℚ) : String :=
  let c : ℤ := roundHalfEven (q * 100)
  let i : ℤ := c / 100
  let r : Nat := (c % 100).toNat
  toString i ++ "." ++ (if r < 10 then "0" ++ toString r else toString r)

/-! ## Fractional odds conversion

Embeds `fraction_to_decimal` (src/scripts/rpscrape.py, lines 179-189).
The Python function maps over a list; each element is converted
independently, so we embed the per-element conversion and the list map.
A malformed element (no `"/"` part, a non-numeric numeral, or a zero
denominator) raises in Python; the embedding returns `none` there. -/

/-- Converts one fractional starting-price string to its decimal-odds string. -/
def fraction_to_decimal_one (fraction : String) : Option String :=
  if fraction = "" ∨ fraction = "No Odds" then some ""
  else if strContains (pyLower fraction) "evens" = true ∨ pyLower fraction = "evs" then some "2.00"
  else
    match pySplit fraction '/' with
    | a :: b :: _ => do
        let x ← parseFloat? a
        let y ← parseFloat? b
        if y = 0 then none else some (formatFixed2 (x / y + 1))
    | _ => none

/-- Embeds `fraction_to_decimal` over a list of starting-price strings. -/
def fraction_to_decimal (fractions : List String) : Option (List String) :=
  fractions.mapM fraction_to_decimal_one

/-! ## Beaten-distance extraction

Embeds the `btn`/`ovr_btn` extraction loop of `scrape_races`
(src/scripts/rpscrape.py, lines 683-709) and the glyph-replacement chain
(lines 711-725).  Each `rp-horseTable__pos__length` cell holds one or two
`span` children whose text may be missing (`None`). -/

/-- One beaten-distance table cell: its list of `span` texts. -/
inductive LengthCell where
  | two (btnText ovrText : Option String)
  | one (text : Option String)
deriving DecidableEq

/-- Processes one cell, appending to the accumulated `(btn, ovr_btn)` lists
exactly as the Python loop does. -/
def lengthStep (acc : List String × List String) (cell : LengthCell) : List String × List String :=
  match cell with
  | .two a b =>
      (acc.1 ++ [a.getD "0"],
       acc.2 ++ [match b with
                 | none => "0"
                 | some t => pyStripChars t ['[', ']']])
  | .one none => (acc.1 ++ ["0"], acc.2 ++ ["0"])
  | .one (some t) =>
      if t = "dht" then
        (acc.1 ++ ["dht"], acc.2 ++ [acc.2.getLastD "dht"])
      else
        (acc.1 ++ [t], acc.2 ++ [t])

/-- Extracts the raw `(btn, ovr_btn)` string lists from the cells. -/
def extract_lengths (cells : List LengthCell) : List String × List String :=
  cells.foldl lengthStep ([], [])

/-- The fixed glyph-to-decimal replacement chain applied to each beaten
distance (src/scripts/rpscrape.py, lines 711-725). -/
def glyphReplace (b : String) : String :=
  pyReplace (pyReplace (pyReplace (pyReplace (pyReplace (pyReplace (pyReplace (pyReplace (pyReplace (pyReplace (pyReplace
    b "¼" ".25") "½" ".5") "¾" ".75") "snk" "0.2") "nk" "0.3") "sht-hd" "0.1") "shd" "0.1") "hd" "0.2") "nse" "0.05") "dht" "0") "dist" "30"

/-- Per-element transform applied to `btn` entries. -/
def btnTransform (b : String) : String :=
  glyphReplace (pyStrip b)

/-- Per-element transform applied to `ovr_btn` entries. -/
def ovrBtnTransform (b : String) : String :=
  glyphReplace (pyStripChars (pyStrip b) ['[', ']'])

/-! ## Row emission and column backfill

Embeds the per-column massaging and the row emission of `scrape_races`
(src/scripts/rpscrape.py).  The column lists are the results of the
per-page xpath extractions; the code pads `prize` (lines 670-675) and
`btn`/`ovr_btn` (lines 727-731) to the length of the position column, and
then emits one CSV row per element of the 26-way `zip` (lines 855-871),
which truncates to the shortest list. -/

/-- The 26 per-runner columns in the order they are zipped for emission. -/
structure RaceColumns where
  numbers : List String
  pos : List String
  prize : List String
  draw : List String
  btn : List String
  ovr_btn : List String
  name : List String
  nats : List String
  sps : List String
  dec : List String
  times : List String
  jock : List String
  trainer : List String
  age : List String
  sex : List String
  orat : List String
  rpr : List String
  ts : List String
  wgt : List String
  lbs : List String
  gear : List String
  coms : List String
  sires : List String
  dams : List String
  damsires : List String
  owners : List String
deriving DecidableEq

/-- Embeds the prize backfill: `del prize[0]` (header cell), then append
empty strings up to the number of positions; an empty extraction is
replaced by all-empty placeholders (the `IndexError` branch). -/
def processPrize (pos prize : List String) : List String :=
  match prize with
  | [] => List.replicate pos.length ""
  | _ :: rest => rest ++ List.replicate (pos.length - rest.length) ""

/-- Embeds `if len(xs) < len(pos): xs.extend([''] * (len(pos) - len(xs)))`. -/
def padTo (n : Nat) (xs : List String) : List String :=
  if xs.length < n then xs ++ List.replicate (n - xs.length) "" else xs

/-- Applies the three documented backfills (prize money and the two
beaten-distance columns); no other column is adjusted. -/
def backfillColumns (c : RaceColumns) : RaceColumns :=
  { c with
      prize := processPrize c.pos c.prize
      ovr_btn := padTo c.pos.length c.ovr_btn
      btn := padTo c.pos.length c.btn }

/-- Number of CSV rows emitted: the length of the 26-way `zip`, which is the
length of the shortest column. -/
def emittedRowCount (c : RaceColumns) : Nat :=
  (c.numbers.zip (c.pos.zip (c.prize.zip (c.draw.zip (c.btn.zip (c.ovr_btn.zip
    (c.name.zip (c.nats.zip (c.sps.zip (c.dec.zip (c.times.zip (c.jock.zip
    (c.trainer.zip (c.age.zip (c.sex.zip (c.orat.zip (c.rpr.zip (c.ts.zip
    (c.wgt.zip (c.lbs.zip (c.gear.zip (c.coms.zip (c.sires.zip (c.dams.zip
    (c.damsires.zip c.owners))))))))))))))))))))))))).length

/-- A concrete two-runner jumps page: every column was extracted with two
entries except `draw`, which is absent on a jumps result page (no
`rp-horseTable__pos__draw` elements), and `prize`, which still carries its
header cell before `del prize[0]`. -/
def truncationPage : RaceColumns where
  numbers := ["1", "2"]
  pos := ["1", "2"]
  prize := ["hdr", "3000", "1500"]
  draw := []
  btn := ["0", "1.5"]
  ovr_btn := ["0", "1.5"]
  name := ["Alpha", "Beta"]
  nats := ["(GB)", "(IRE)"]
  sps := ["9/2", "2/1"]
  dec := ["5.50", "3.00"]
  times := ["1:45.00", "1:45.30"]
  jock := ["J One", "J Two"]
  trainer := ["T One", "T Two"]
  age := ["5", "6"]
  sex := ["G", "M"]
  orat := ["70", "65"]
  rpr := ["80", "75"]
  ts := ["60", "55"]
  wgt := ["11-2", "10-13"]
  lbs := ["156", "153"]
  gear := ["", "b"]
  coms := ["led", "chased"]
  sires := ["S One", "S Two"]
  dams := ["D One", "D Two"]
  damsires := ["DS One", "DS Two"]
  owners := ["O One", "O Two"]

/-! ## Failure records and analyzers

Embeds the failure bookkeeping of `src/RPScraper/scripts/rpscrape.py`.
A failure dict carries more fields in Python (race id, course, url, ...);
the analyzers and the claims only read `error_type`, `attempts` and
`timestamp`, so the embedding keeps those.  Timestamps are modelled as
rational seconds (the code compares `total_seconds()` differences). -/

/-- One recorded per-URL failure. -/
structure FailureRecord where
  error_type : String
  attempts : Nat
  timestamp : ℚ
deriving DecidableEq

/-- Embeds `sum(1 for f in failed_races if f.get('error_type') == 'HTTP_406')`. -/
def http406Count (failed : List FailureRecord) : Nat :=
  failed.countP (fun f => f.error_type = "HTTP_406")

/-- Embeds `is_likely_rate_limited` (src/RPScraper/scripts/rpscrape.py,
lines 135-162).  The float comparison with `0.5` and the 120-second window
are modelled exactly over `ℚ`; every modelled record carries a timestamp, so
the `KeyError`/`ValueError` guard never fires. -/
def is_likely_rate_limited (failed : List FailureRecord) : Bool :=
  if failed.isEmpty then false
  else if (http406Count failed : ℚ) / failed.length > 1/2 then true
  else if 3 ≤ failed.length then
    let timestamps := (failed.map FailureRecord.timestamp).mergeSort (fun a b => decide (a ≤ b))
    if timestamps.getLastD 0 - timestamps.headD 0 < 120 then true else false
  else false

/-- Embeds `analyze_error_pattern` (src/RPScraper/scripts/rpscrape.py,
lines 165-191); the float comparisons with `0.8` and `0.5` are modelled
exactly over `ℚ`. -/
def analyze_error_pattern (failed : List FailureRecord) : String :=
  if failed.isEmpty then "none"
  else
    let k := http406Count failed
    let total := failed.length
    if k = 0 then "other_errors"
    else if k = total then "all_rate_limited"
    else if (k : ℚ) / total > 8/10 then "mostly_rate_limited"
    else if (k : ℚ) / total ≥ 1/2 then "mixed_with_rate_limiting"
    else "other_errors"

/-! ## The orchestrator loop

Embeds `scrape_races` of `src/RPScraper/scripts/rpscrape.py` (lines
194-375).  Each URL's fetch-and-parse is summarised by a `UrlOutcome`: the
`try` block either writes the parsed rows (success), `continue`s on a
non-200 status, or raises one of `Persistent406Error`, `VoidRaceError`,
`RaceParseError` or a generic exception.  The failure timestamp
(`datetime.now`) is supplied alongside each outcome. -/

/-- Outcome of fetching and parsing one URL inside the `try` block. -/
inductive UrlOutcome where
  | success (rows : List String)
  | httpError (status : Nat)
  | blocked
  | voidRace
  | parseError (msg : String)
  | exn (msg : String)
deriving DecidableEq

/-- Mutable loop state of `scrape_races`. -/
structure ScrapeState where
  rowsWritten : List String
  successful_races : Nat
  void_races : Nat
  failed_races : List FailureRecord
  consecutive_406_errors : Nat
  current_delay : ℚ
deriving DecidableEq

/-- Base inter-request delay in seconds (`base_delay = 1.0`). -/
def base_delay : ℚ := 1

/-- Backoff cap in seconds (`max_backoff_delay = 60.0`). -/
def max_backoff_delay : ℚ := 60

/-- Retry budget of the retrieval layer; recorded with every HTTP failure
(`'attempts': 7  # NetworkClient default retries`). -/
def max_retries : Nat := 7

/-- State update of the `try`/`except` dispatch for one URL. -/
def processUrl (s : ScrapeState) (o : UrlOutcome) (t : ℚ) : ScrapeState :=
  match o with
  | .success rows =>
      if s.consecutive_406_errors > 0 then
        { s with
            rowsWritten := s.rowsWritten ++ rows
            successful_races := s.successful_races + 1
            consecutive_406_errors := 0
            current_delay := base_delay }
      else
        { s with
            rowsWritten := s.rowsWritten ++ rows
            successful_races := s.successful_races + 1 }
  | .httpError st =>
      { s with failed_races := s.failed_races ++ [⟨"HTTP_" ++ toString st, max_retries, t⟩] }
  | .blocked =>
      { s with
          consecutive_406_errors := s.consecutive_406_errors + 1
          failed_races := s.failed_races ++ [⟨"HTTP_406", max_retries, t⟩] }
  | .voidRace => { s with void_races := s.void_races + 1 }
  | .parseError _ =>
      { s with failed_races := s.failed_races ++ [⟨"PARSE_ERROR", 1, t⟩] }
  | .exn _ =>
      { s with failed_races := s.failed_races ++ [⟨"EXCEPTION", 1, t⟩] }

/-- One full loop iteration: the dispatch above followed by the
inter-request delay block (lines 311-324).  Returns the new state and the
base (pre-jitter) delay slept, `none` when the `continue` of the non-200
branch skips the delay block. -/
def raceStep (s : ScrapeState) (o : UrlOutcome) (t : ℚ) : ScrapeState × Option ℚ :=
  let s1 := processUrl s o t
  match o with
  | .httpError _ => (s1, none)
  | _ =>
      if s1.consecutive_406_errors > 0 then
        let d := min (5 * 2 ^ (s1.consecutive_406_errors - 1)) max_backoff_delay
        ({ s1 with current_delay := d }, some d)
      else (s1, some base_delay)

/-- Jittered sleep amount: `current_delay + current_delay * 0.2 * (u - 0.5) * 2`
for a uniform sample `u ∈ [0, 1)`. -/
def jittered_delay (d u : ℚ) : ℚ :=
  d + d * (2/10) * (u - 1/2) * 2

/-- Loop state before the first URL. -/
def initState : ScrapeState :=
  { rowsWritten := []
    successful_races := 0
    void_races := 0
    failed_races := []
    consecutive_406_errors := 0
    current_delay := base_delay }

/-- Runs the whole URL loop over the per-URL outcomes (with their failure
timestamps). -/
def runRaces (events : List (UrlOutcome × ℚ)) : ScrapeState :=
  events.foldl (fun s e => (raceStep s e.1 e.2).1) initState

/-- Iterates `n` consecutive block outcomes from `s`, keeping the last
emitted base delay. -/
def blockRun (s : ScrapeState) (t : ℚ) : Nat → ScrapeState × Option ℚ
  | 0 => (s, none)
  | n + 1 => raceStep (blockRun s t n).1 .blocked t

/-- Rounds to two decimal places, ties to even (Python `round(x, 2)` on the
exactly representable values involved). -/
def round2 (q : ℚ) : ℚ :=
  (roundHalfEven (q * 100) : ℚ) / 100

/-- The run metadata dict (lines 332-346). -/
structure RunMetadata where
  total_races_discovered : Nat
  successful_races : Nat
  void_races : Nat
  failed_races : Nat
  completeness_pct : ℚ
  http_406_errors : Nat
  likely_rate_limited : Bool
  error_pattern : String
deriving DecidableEq

/-- Builds the metadata from the final loop state. -/
def mkMetadata (total : Nat) (s : ScrapeState) : RunMetadata where
  total_races_discovered := total
  successful_races := s.successful_races
  void_races := s.void_races
  failed_races := s.failed_races.length
  completeness_pct := round2 (if total > 0 then (s.successful_races : ℚ) / total * 100 else 0)
  http_406_errors := http406Count s.failed_races
  likely_rate_limited := is_likely_rate_limited s.failed_races
  error_pattern := analyze_error_pattern s.failed_races

/-- What one run writes: the output rows, the metadata file, and the failure
log (written only when failures occurred, lines 352-360). -/
structure RunResult where
  rows : List String
  metadata : RunMetadata
  failure_log : Option (List FailureRecord)
deriving DecidableEq

/-- Embeds `scrape_races` end to end over the per-URL outcomes. -/
def scrape_races (events : List (UrlOutcome × ℚ)) : RunResult :=
  let s := runRaces events
  { rows := s.rowsWritten
    metadata := mkMetadata events.length s
    failure_log := if s.failed_races.isEmpty then none else some s.failed_races }

/-- True for the outcomes that append a `FailureRecord`. -/
def isFailureOutcome : UrlOutcome → Bool
  | .httpError _ => true
  | .blocked => true
  | .parseError _ => true
  | .exn _ => true
  | .success _ => false
  | .voidRace => false

/-- The failure record an outcome contributes, if any (mirrors the appends
in `processUrl`). -/
def failureOf (e : UrlOutcome × ℚ) : Option FailureRecord :=
  match e.1 with
  | .httpError st => some ⟨"HTTP_" ++ toString st, max_retries, e.2⟩
  | .blocked => some ⟨"HTTP_406", max_retries, e.2⟩
  | .parseError _ => some ⟨"PARSE_ERROR", 1, e.2⟩
  | .exn _ => some ⟨"EXCEPTION", 1, e.2⟩
  | .success _ => none
  | .voidRace => none

/-- Concatenation of the rows of all successful outcomes, in order. -/
def successRows : List (UrlOutcome × ℚ) → List String
  | [] => []
  | (UrlOutcome.success rows, _) :: rest => rows ++ successRows rest
  | _ :: rest => successRows rest

/-! ## The retrieval client and void detection (modelled from the spec)

`utils/network.py` (class `NetworkClient`, `Persistent406Error`) and
`utils/race.py` (class `Race`, `VoidRaceError`) are imported by
`src/RPScraper/scripts/rpscrape.py` but are not part of the source
snapshot; only their callers are.  They are modelled from the spec here. -/

/-- Outcome taxonomy of one fetch attempt sequence (spec §3, §4.1). -/
inductive FetchOutcome where
  | success (status : Nat)
  | httpError (status : Nat)
  | blockedPersistent
deriving DecidableEq

/-- Modelled from the spec: the retry loop of `NetworkClient.get`
(`utils/network.py` is absent from the snapshot).  Per spec §4.1 the client
retries only the deliberate-block status (HTTP 406), up to a fixed budget of
7 attempts, rotating its identity each retry; any other status is surfaced
immediately.  `responses` gives the status the server returns to the i-th
attempt; the second component is the number of attempts performed. -/
def fetchFrom (responses : Nat → Nat) (attempt : Nat) : Nat → FetchOutcome × Nat
  | 0 => (.blockedPersistent, attempt)
  | remaining + 1 =>
      let st := responses attempt
      if st = 406 then fetchFrom responses (attempt + 1) remaining
      else if st = 200 then (.success st, attempt + 1)
      else (.httpError st, attempt + 1)

/-- Modelled from the spec: one full fetch attempt sequence with the
7-attempt block budget. -/
def fetch (responses : Nat → Nat) : FetchOutcome × Nat :=
  fetchFrom responses 0 max_retries

/-- Modelled from the spec: void detection of `utils/race.py` (absent from
the snapshot) — a document containing the marker text "race void" signals a
void race (spec §4.2, §8). -/
def isVoidDocument (body : String) : Bool :=
  strContains body "race void"

/-- Modelled from the spec: the `Race` constructor checks the void marker
before any runner parsing and raises `VoidRaceError`; otherwise parsing
proceeds and yields `parsed`. -/
def raceOutcome (body : String) (parsed : UrlOutcome) : UrlOutcome :=
  if isVoidDocument body then .voidRace else parsed

/-! ## Helper lemmas -/

/-- Effect of one loop iteration on the failure list. -/
theorem raceStep_failed (s : ScrapeState) (o : UrlOutcome) (t : ℚ) :
    (raceStep s o t).1.failed_races
      = s.failed_races ++ (failureOf (o, t)).elim [] (fun f => [f]) := by
  cases o <;> simp [raceStep, processUrl, failureOf] <;> split <;> simp

/-- Effect of one loop iteration on the written rows. -/
theorem raceStep_rows (s : ScrapeState) (o : UrlOutcome) (t : ℚ) :
    (raceStep s o t).1.rowsWritten
      = s.rowsWritten ++ (match o with | .success rows => rows | _ => []) := by
  cases o <;> simp [raceStep, processUrl] <;> split <;> simp

/-- The loop records exactly the failures of the processed outcomes and
writes exactly the rows of the successful ones, from any starting state. -/
theorem runAux_spec (events : List (UrlOutcome × ℚ)) :
    ∀ s : ScrapeState,
      ((events.foldl (fun s e => (raceStep s e.1 e.2).1) s).failed_races
          = s.failed_races ++ events.filterMap failureOf) ∧
      ((events.foldl (fun s e => (raceStep s e.1 e.2).1) s).rowsWritten
          = s.rowsWritten ++ successRows events) := by
  induction events with
  | nil => intro s; simp [successRows]
  | cons e rest ih =>
    rcases e with ⟨o, t⟩
    intro s
    obtain ⟨ih1, ih2⟩ := ih ((raceStep s o t).1)
    refine ⟨?_, ?_⟩
    · rw [List.foldl_cons, ih1, raceStep_failed]
      cases o <;> simp [failureOf]
    · rw [List.foldl_cons, ih2, raceStep_rows]
      cases o <;> simp [successRows]

/-- Each recorded failure corresponds to one failure-kind outcome. -/
theorem filterMap_failureOf_length (events : List (UrlOutcome × ℚ)) :
    (events.filterMap failureOf).length = events.countP (fun e => isFailureOutcome e.1) := by
  induction events with
  | nil => rfl
  | cons e rest ih =>
    rcases e with ⟨o, t⟩
    cases o <;> simp [failureOf, isFailureOutcome, List.countP_cons, ih]

/-- The retrieval model performs at most `attempt + fuel` attempts. -/
theorem fetchFrom_attempts_le (responses : Nat → Nat) :
    ∀ fuel attempt : Nat, (fetchFrom responses attempt fuel).2 ≤ attempt + fuel := by
  intro fuel
  induction fuel with
  | zero => intro a; simp [fetchFrom]
  | succ n ih =>
    intro a
    simp only [fetchFrom]
    split
    · exact le_trans (ih (a + 1)) (by omega)
    · split <;> simp

/-- When every attempted request is answered with the block status, the
retrieval model uses its whole budget and reports a persistent block. -/
theorem fetchFrom_all_blocked (responses : Nat → Nat) :
    ∀ fuel attempt : Nat, (∀ i, attempt ≤ i → i < attempt + fuel → responses i = 406) →
      fetchFrom responses attempt fuel = (FetchOutcome.blockedPersistent, attempt + fuel) := by
  intro fuel
  induction fuel with
  | zero => intro a _; simp [fetchFrom]
  | succ n ih =>
    intro a h
    have h406 : responses a = 406 := h a le_rfl (by omega)
    simp only [fetchFrom, h406, if_pos rfl]
    rw [ih (a + 1) (fun i h1 h2 => h i (by omega) (by omega))]
    simp
    omega

/-! ## Claim theorems -/

/-- C10: running the orchestrator over an empty URL list terminates normally;
the run metadata has every count equal to zero and `completeness_pct = 0`
(the `succeeded/discovered` division is guarded by `total_races > 0`), and no
failure log is written. -/
theorem empty_run_spec :
    (scrape_races []).metadata.total_races_discovered = 0 ∧
    (scrape_races []).metadata.successful_races = 0 ∧
    (scrape_races []).metadata.void_races = 0 ∧
    (scrape_races []).metadata.failed_races = 0 ∧
    (scrape_races []).metadata.http_406_errors = 0 ∧
    (scrape_races []).metadata.completeness_pct = 0 ∧
    (scrape_races []).metadata.likely_rate_limited = false ∧
    (scrape_races []).metadata.error_pattern = "none" ∧
    (scrape_races []).failure_log = none := by
  refine ⟨rfl, rfl, rfl, rfl, rfl, ?_, rfl, rfl, rfl⟩
  show round2 (if (0 : Nat) > 0 then ((0 : Nat) : ℚ) / ((0 : Nat) : ℚ) * 100 else 0) = 0
  norm_num [round2, roundHalfEven]

/-- C9: every per-URL error outcome (HTTP error, persistent block, parse
error, unexpected exception) is recorded as exactly one failure record and
processing continues: over any outcome list the final state holds the
failure records of exactly the failing URLs, the output rows of exactly the
successful URLs, and the run still produces its metadata at the end. -/
theorem per_url_failure_isolation_spec :
    ∀ events : List (UrlOutcome × ℚ),
      (runRaces events).failed_races = events.filterMap failureOf ∧
      (runRaces events).failed_races.length
          = events.countP (fun e => isFailureOutcome e.1) ∧
      (runRaces events).rowsWritten = successRows events ∧
      (scrape_races events).rows = successRows events ∧
      (scrape_races events).metadata.total_races_discovered = events.length ∧
      (scrape_races events).metadata.failed_races
          = events.countP (fun e => isFailureOutcome e.1) := by
  intro events
  obtain ⟨h1, h2⟩ := runAux_spec events initState
  have hf : (runRaces events).failed_races = events.filterMap failureOf := by
    simpa [runRaces, initState] using h1
  have hr : (runRaces events).rowsWritten = successRows events := by
    simpa [runRaces, initState] using h2
  refine ⟨hf, ?_, hr, ?_, rfl, ?_⟩
  · rw [hf, filterMap_failureOf_length]
  · show (runRaces events).rowsWritten = successRows events
    exact hr
  · show (runRaces events).failed_races.length = _
    rw [hf, filterMap_failureOf_length]

/-- C8: a fetched document carrying the void-race marker yields the void
outcome; processing it increments the void count by exactly one and leaves
the output rows, the failure records, the success count and the
consecutive-block counter unchanged — a void race is never a parse error and
never escalates backoff. -/
theorem void_race_spec :
    ∀ (body : String) (parsed : UrlOutcome) (s : ScrapeState) (t : ℚ),
      isVoidDocument body = true →
      (raceStep s (raceOutcome body parsed) t).1.void_races = s.void_races + 1 ∧
      (raceStep s (raceOutcome body parsed) t).1.rowsWritten = s.rowsWritten ∧
      (raceStep s (raceOutcome body parsed) t).1.failed_races = s.failed_races ∧
      (raceStep s (raceOutcome body parsed) t).1.successful_races = s.successful_races ∧
      (raceStep s (raceOutcome body parsed) t).1.consecutive_406_errors
          = s.consecutive_406_errors := by
  intro body parsed s t h
  have ho : raceOutcome body parsed = .voidRace := by
    simp [raceOutcome, h]
  rw [ho]
  refine ⟨?_, ?_, ?_, ?_, ?_⟩ <;> simp [raceStep, processUrl] <;> split <;> simp

/-- C8 witness: a concrete document containing the marker. -/
theorem void_race_spec_witness :
    (raceStep initState
        (raceOutcome "result: race void after a false start" (UrlOutcome.success ["r1"])) 0).1.void_races
      = 1 := by
  have h := void_race_spec "result: race void after a false start"
    (UrlOutcome.success ["r1"]) initState 0 (by decide)
  simpa [initState] using h.1

/-- C2: the retrieval layer retries the block status at most 7 times: for
every response pattern the fetch sequence performs at most `max_retries = 7`
attempts (so it terminates), a uniformly blocked URL yields the distinguished
`blockedPersistent` outcome after exactly 7 attempts, and the orchestrator
records that failure with attempt count 7 (spec-modelled retrieval client;
the attempt count recorded by `scrape_races` is in the source). -/
theorem fetch_block_retry_bound :
    (∀ responses : Nat → Nat, (fetch responses).2 ≤ max_retries) ∧
    (∀ responses : Nat → Nat, (∀ i, i < max_retries → responses i = 406) →
      fetch responses = (FetchOutcome.blockedPersistent, max_retries)) ∧
    (∀ (s : ScrapeState) (t : ℚ),
      (processUrl s .blocked t).failed_races
        = s.failed_races ++ [⟨"HTTP_406", max_retries, t⟩]) := by
  refine ⟨?_, ?_, ?_⟩
  · intro responses
    simpa using fetchFrom_attempts_le responses max_retries 0
  · intro responses h
    have := fetchFrom_all_blocked responses max_retries 0 (fun i _ h2 => h i (by omega))
    simpa using this
  · intro s t
    simp [processUrl]

/-- C2 witness: the all-blocked server exhausts the budget at exactly 7
attempts, and a concrete blocked URL is recorded with attempt count 7. -/
theorem fetch_block_retry_bound_witness :
    fetch (fun _ => 406) = (FetchOutcome.blockedPersistent, 7) ∧
    (processUrl initState .blocked 0).failed_races = [⟨"HTTP_406", 7, 0⟩] := by
  constructor
  · exact fetch_block_retry_bound.2.1 (fun _ => 406) (fun i _ => rfl)
  · have h := fetch_block_retry_bound.2.2 initState 0
    simpa [initState, max_retries] using h

/-- Consecutive block outcomes increment the consecutive-block counter by one
each. -/
theorem blockRun_consecutive (s : ScrapeState) (t : ℚ) :
    ∀ n : Nat, (blockRun s t n).1.consecutive_406_errors
      = s.consecutive_406_errors + n := by
  intro n
  induction n with
  | zero => rfl
  | succ m ih =>
    simp [blockRun, raceStep, processUrl, ih]
    omega

/-- The base delay emitted after the (n+1)-st consecutive block. -/
theorem blockRun_delay (s : ScrapeState) (t : ℚ) :
    ∀ n : Nat, (blockRun s t (n + 1)).2
      = some (min (5 * 2 ^ (s.consecutive_406_errors + n)) max_backoff_delay) := by
  intro n
  have hc := blockRun_consecutive s t n
  simp [blockRun, raceStep, processUrl, hc]

/-- One step preserves the invariant that a zero consecutive-block counter
comes with the normal base delay. -/
theorem raceStep_delay_inv (s : ScrapeState) (o : UrlOutcome) (t : ℚ)
    (h : s.consecutive_406_errors = 0 → s.current_delay = base_delay) :
    (raceStep s o t).1.consecutive_406_errors = 0 →
      (raceStep s o t).1.current_delay = base_delay := by
  cases o with
  | success rows =>
    by_cases hc : s.consecutive_406_errors > 0 <;> simp [raceStep, processUrl, hc]
    simp_all
  | httpError st => simpa [raceStep, processUrl] using h
  | blocked => simp [raceStep, processUrl]
  | voidRace =>
    by_cases hc : s.consecutive_406_errors > 0
    · simp [raceStep, processUrl, hc]
      intro h0
      exact absurd h0 (by omega)
    · simpa [raceStep, processUrl, hc] using h
  | parseError msg =>
    by_cases hc : s.consecutive_406_errors > 0
    · simp [raceStep, processUrl, hc]
      intro h0
      exact absurd h0 (by omega)
    · simpa [raceStep, processUrl, hc] using h
  | exn msg =>
    by_cases hc : s.consecutive_406_errors > 0
    · simp [raceStep, processUrl, hc]
      intro h0
      exact absurd h0 (by omega)
    · simpa [raceStep, processUrl, hc] using h

/-- The invariant holds along the whole loop. -/
theorem foldl_delay_inv (events : List (UrlOutcome × ℚ)) :
    ∀ s : ScrapeState, (s.consecutive_406_errors = 0 → s.current_delay = base_delay) →
      ((events.foldl (fun s e => (raceStep s e.1 e.2).1) s).consecutive_406_errors = 0 →
        (events.foldl (fun s e => (raceStep s e.1 e.2).1) s).current_delay = base_delay) := by
  induction events with
  | nil => intro s h; simpa using h
  | cons e rest ih =>
    intro s h
    exact ih _ (raceStep_delay_inv s e.1 e.2 h)

/-- C1: after n consecutive block outcomes (n from 1) the counter equals n
and the emitted base (pre-jitter) inter-request delay is
`min(5 * 2^(n-1), cap)` — 5, 10, 20 seconds for n = 1, 2, 3, capped at 60;
the applied jitter stays within ±20% of the base delay; and any success
resets the counter to 0 and the delay to the normal base delay. -/
theorem backoff_escalation_spec :
    (∀ (s : ScrapeState) (t : ℚ) (n : Nat), s.consecutive_406_errors = 0 → 1 ≤ n →
      (blockRun s t n).1.consecutive_406_errors = n ∧
      (blockRun s t n).2 = some (min (5 * 2 ^ (n - 1)) max_backoff_delay)) ∧
    (∀ d u : ℚ, 0 ≤ d → 0 ≤ u → u < 1 →
      |jittered_delay d u - d| ≤ (2/10) * d) ∧
    (∀ (events : List (UrlOutcome × ℚ)) (rows : List String) (t : ℚ),
      (raceStep (runRaces events) (.success rows) t).1.consecutive_406_errors = 0 ∧
      (raceStep (runRaces events) (.success rows) t).1.current_delay = base_delay ∧
      (raceStep (runRaces events) (.success rows) t).2 = some base_delay) := by
  refine ⟨?_, ?_, ?_⟩
  · intro s t n hc hn
    obtain ⟨m, rfl⟩ : ∃ m, n = m + 1 := ⟨n - 1, by omega⟩
    refine ⟨?_, ?_⟩
    · rw [blockRun_consecutive s t (m + 1), hc]
      omega
    · rw [blockRun_delay s t m, hc]
      simp
  · intro d u hd hu0 hu1
    have h1 : jittered_delay d u - d = (2/10) * d * (2 * u - 1) := by
      unfold jittered_delay
      ring
    have h2 : |2 * u - 1| ≤ 1 := abs_le.mpr ⟨by linarith, by linarith⟩
    have h3 : |(2/10 : ℚ) * d| = (2/10) * d := abs_of_nonneg (by positivity)
    rw [h1, abs_mul, h3]
    calc (2/10) * d * |2 * u - 1| ≤ (2/10) * d * 1 :=
          mul_le_mul_of_nonneg_left h2 (by positivity)
      _ = (2/10) * d := mul_one _
  · intro events rows t
    have hinv : (runRaces events).consecutive_406_errors = 0 →
        (runRaces events).current_delay = base_delay := by
      simpa [runRaces] using foldl_delay_inv events initState (fun _ => rfl)
    by_cases hc : (runRaces events).consecutive_406_errors > 0
    · simp [raceStep, processUrl, hc]
    · have hc0 : (runRaces events).consecutive_406_errors = 0 := by omega
      have hcur := hinv hc0
      simp [raceStep, processUrl, hc, hc0, hcur]

/-- C1 witness: delays 5, 10, 20 for 1, 2, 3 consecutive blocks, the 60s cap
at 5 blocks, a concrete jitter bound, and a success resetting the delay after
a block. -/
theorem backoff_escalation_spec_witness :
    (blockRun initState 0 1).2 = some 5 ∧
    (blockRun initState 0 2).2 = some 10 ∧
    (blockRun initState 0 3).2 = some 20 ∧
    (blockRun initState 0 5).2 = some 60 ∧
    |jittered_delay 5 (1/4) - 5| ≤ (2/10) * 5 ∧
    (raceStep (runRaces [(UrlOutcome.blocked, 0)]) (UrlOutcome.success ["r"]) 0).1.current_delay
      = base_delay := by
  have h1 := (backoff_escalation_spec.1 initState 0 1 rfl (by omega)).2
  have h2 := (backoff_escalation_spec.1 initState 0 2 rfl (by omega)).2
  have h3 := (backoff_escalation_spec.1 initState 0 3 rfl (by omega)).2
  have h5 := (backoff_escalation_spec.1 initState 0 5 rfl (by omega)).2
  have hj := backoff_escalation_spec.2.1 5 (1/4) (by norm_num) (by norm_num) (by norm_num)
  have hs := (backoff_escalation_spec.2.2 [(UrlOutcome.blocked, 0)] ["r"] 0).2.1
  refine ⟨?_, ?_, ?_, ?_, hj, hs⟩
  · rw [h1]
    norm_num [max_backoff_delay]
  · rw [h2]
    norm_num [max_backoff_delay]
  · rw [h3]
    norm_num [max_backoff_delay]
  · rw [h5]
    norm_num [max_backoff_delay]

/-- C3 counterexample: a two-runner jumps page whose `draw` column is empty
(no draw elements exist on such pages).  After the documented backfills the
position column still has 2 entries but `draw` has 0, and the emission
silently truncates to 0 rows — fewer than the runner count — while
`scrape_races` of src/scripts/rpscrape.py has no parse-error path for
mismatched lengths at all. -/
theorem cardinality_truncation_cex :
    (backfillColumns truncationPage).pos.length = 2 ∧
    (backfillColumns truncationPage).draw.length = 0 ∧
    emittedRowCount (backfillColumns truncationPage) = 0 := ⟨rfl, rfl, rfl⟩

/-- C3 amended: only the prize-money and the two beaten-distance columns are
backfilled with empty placeholders up to the position-column length; every
other column is left as extracted, and the number of emitted rows is the
minimum of the 26 column lengths (`zip` semantics) — a shorter column
silently truncates the output instead of raising a parse error. -/
theorem row_emission_backfill_spec :
    ∀ c : RaceColumns,
      (backfillColumns c).prize.length = max (c.prize.length - 1) c.pos.length ∧
      (backfillColumns c).btn.length = max c.btn.length c.pos.length ∧
      (backfillColumns c).ovr_btn.length = max c.ovr_btn.length c.pos.length ∧
      (backfillColumns c).draw = c.draw ∧
      emittedRowCount c =
        min c.numbers.length (min c.pos.length (min c.prize.length (min c.draw.length
          (min c.btn.length (min c.ovr_btn.length (min c.name.length (min c.nats.length
          (min c.sps.length (min c.dec.length (min c.times.length (min c.jock.length
          (min c.trainer.length (min c.age.length (min c.sex.length (min c.orat.length
          (min c.rpr.length (min c.ts.length (min c.wgt.length (min c.lbs.length
          (min c.gear.length (min c.coms.length (min c.sires.length (min c.dams.length
          (min c.damsires.length c.owners.length)))))))))))))))))))))))) := by
  intro c
  refine ⟨?_, ?_, ?_, rfl, ?_⟩
  · cases hp : c.prize <;> simp [backfillColumns, processPrize, hp]
    omega
  · simp only [backfillColumns, padTo]
    split_ifs <;> simp <;> omega
  · simp only [backfillColumns, padTo]
    split_ifs <;> simp <;> omega
  · simp only [emittedRowCount, List.length_zip]

/-- C7: the beaten-distance glyph replacement chain realises exactly the
fixed table (¼→.25, ½→.5, ¾→.75, snk→0.2, nk→0.3, sht-hd→0.1, shd→0.1,
hd→0.2, nse→0.05, dht→0, dist→30; it is a total function, hence
deterministic), and a runner whose single margin span reads the dead-heat
sentinel `dht` inherits the previous runner's cumulative overall-beaten
entry instead of zero. -/
theorem beaten_glyph_spec :
    glyphReplace "¼" = ".25" ∧
    glyphReplace "½" = ".5" ∧
    glyphReplace "¾" = ".75" ∧
    glyphReplace "snk" = "0.2" ∧
    glyphReplace "nk" = "0.3" ∧
    glyphReplace "sht-hd" = "0.1" ∧
    glyphReplace "shd" = "0.1" ∧
    glyphReplace "hd" = "0.2" ∧
    glyphReplace "nse" = "0.05" ∧
    glyphReplace "dht" = "0" ∧
    glyphReplace "dist" = "30" ∧
    (∀ (cells : List LengthCell) (v : String),
      (extract_lengths cells).2.getLast? = some v →
      (extract_lengths (cells ++ [LengthCell.one (some "dht")])).2
        = (extract_lengths cells).2 ++ [v]) := by
  refine ⟨by decide, by decide, by decide, by decide, by decide, by decide,
    by decide, by decide, by decide, by decide, by decide, ?_⟩
  intro cells v hv
  have happ : extract_lengths (cells ++ [LengthCell.one (some "dht")])
      = lengthStep (extract_lengths cells) (LengthCell.one (some "dht")) := by
    simp [extract_lengths, List.foldl_append]
  rw [happ]
  simp [lengthStep, List.getLastD_eq_getLast?, hv]

/-- C7 witness: a runner one length behind the winner followed by a
dead-heating runner, whose overall-beaten entry repeats the previous one. -/
theorem beaten_glyph_spec_witness :
    (extract_lengths [LengthCell.two (some "1") (some "5"), LengthCell.one (some "dht")]).2
      = ["5", "5"] := by
  have h := beaten_glyph_spec.2.2.2.2.2.2.2.2.2.2.2
    [LengthCell.two (some "1") (some "5")] "5" (by decide)
  rw [show ([LengthCell.two (some "1") (some "5"), LengthCell.one (some "dht")])
      = [LengthCell.two (some "1") (some "5")] ++ [LengthCell.one (some "dht")] from rfl, h]
  decide

/-- C6: fractional starting-price conversion: "9/2" maps to "5.50"; any
string containing "evens" case-insensitively, or equal (case-insensitively)
to "Evs", maps to "2.00"; "" and "No Odds" map to the empty sentinel; and in
general a parsed fraction x/y converts to numerator/denominator + 1 rendered
to two decimals. -/
theorem fraction_to_decimal_spec :
    fraction_to_decimal_one "9/2" = some "5.50" ∧
    fraction_to_decimal_one "" = some "" ∧
    fraction_to_decimal_one "No Odds" = some "" ∧
    (∀ s : String,
      strContains (pyLower s) "evens" = true ∨ pyLower s = "evs" →
      fraction_to_decimal_one s = some "2.00") ∧
    (∀ (s a b : String) (x y : ℚ) (rest : List String),
      s ≠ "" → s ≠ "No Odds" →
      strContains (pyLower s) "evens" = false → pyLower s ≠ "evs" →
      pySplit s '/' = a :: b :: rest →
      parseFloat? a = some x → parseFloat? b = some y → y ≠ 0 →
      fraction_to_decimal_one s = some (formatFixed2 (x / y + 1))) := by
  refine ⟨?_, rfl, rfl, ?_, ?_⟩
  · have h1 : fraction_to_decimal_one "9/2" = some (formatFixed2 ((9 : ℚ) / (2 : ℚ) + 1)) := rfl
    rw [h1]
    norm_num [formatFixed2, roundHalfEven, Int.floor_eq_iff]
    rfl
  · intro s h
    have hne1 : s ≠ "" := by
      rintro rfl
      rcases h with h | h <;> exact absurd h (by decide)
    have hne2 : s ≠ "No Odds" := by
      rintro rfl
      rcases h with h | h <;> exact absurd h (by decide)
    rw [fraction_to_decimal_one, if_neg (by simp [hne1, hne2]), if_pos h]
  · intro s a b x y rest hne1 hne2 hev1 hev2 hsplit hx hy hy0
    rw [fraction_to_decimal_one, if_neg (by simp [hne1, hne2]),
      if_neg (by simp [hev1, hev2]), hsplit]
    simp [hx, hy, hy0]

/-- C6 witness: the evens clause at "Evens" and the general fraction clause
at "11/4". -/
theorem fraction_to_decimal_spec_witness :
    fraction_to_decimal_one "Evens" = some "2.00" ∧
    fraction_to_decimal_one "11/4" = some (formatFixed2 ((11 : ℚ) / (4 : ℚ) + 1)) := by
  constructor
  · exact fraction_to_decimal_spec.2.2.2.1 "Evens" (Or.inl (by decide))
  · exact fraction_to_decimal_spec.2.2.2.2 "11/4" "11" "4" 11 4 []
      (by decide) (by decide) (by decide) (by decide) (by decide)
      (by decide) (by decide) (by norm_num)

/-- The head of a `≤`-sorted rational list bounds every member from below. -/
theorem headD_le_of_sorted (l : List ℚ) (d : ℚ) (hp : l.Pairwise (fun a b : ℚ => a ≤ b)) :
    ∀ x ∈ l, l.headD d ≤ x := by
  cases l with
  | nil => simp
  | cons a tl =>
    intro x hx
    rcases List.mem_cons.mp hx with rfl | hxt
    · simp
    · simpa using (List.pairwise_cons.mp hp).1 x hxt

/-- Every member of a `≤`-sorted rational list is bounded by its last
element. -/
theorem le_getLastD_of_sorted :
    ∀ (l : List ℚ) (d : ℚ), l.Pairwise (fun a b : ℚ => a ≤ b) →
      ∀ x ∈ l, x ≤ l.getLastD d := by
  intro l
  induction l with
  | nil => simp
  | cons a tl ih =>
    intro d hp x hx
    rw [List.getLastD_cons]
    rcases List.mem_cons.mp hx with rfl | hxt
    · cases tl with
      | nil => simp
      | cons b tl' =>
        have hab : x ≤ b := (List.pairwise_cons.mp hp).1 b (by simp)
        have hb := ih x (List.pairwise_cons.mp hp).2 b (by simp)
        exact le_trans hab hb
    · exact ih a (List.pairwise_cons.mp hp).2 x hxt

/-- The defaulted last element of a nonempty list is a member. -/
theorem getLastD_mem_of_ne_nil (l : List ℚ) (d : ℚ) (h : l ≠ []) : l.getLastD d ∈ l := by
  cases l with
  | nil => exact absurd rfl h
  | cons a tl =>
    rw [List.getLastD_cons]
    exact List.getLastD_mem_cons tl a

/-- The defaulted head of a nonempty list is a member. -/
theorem headD_mem_of_ne_nil (l : List ℚ) (d : ℚ) (h : l ≠ []) : l.headD d ∈ l := by
  cases l with
  | nil => exact absurd rfl h
  | cons a tl => simp

/-- `mergeSort` with the decidable `≤` comparator sorts rationals. -/
theorem mergeSort_rat_sorted (l : List ℚ) :
    (l.mergeSort (fun a b => decide (a ≤ b))).Pairwise (fun a b : ℚ => a ≤ b) := by
  have htrans : ∀ a b c : ℚ, (fun a b : ℚ => decide (a ≤ b)) a b →
      (fun a b : ℚ => decide (a ≤ b)) b c → (fun a b : ℚ => decide (a ≤ b)) a c := by
    intro a b c hab hbc
    simp only [decide_eq_true_eq] at *
    exact le_trans hab hbc
  have htotal : ∀ a b : ℚ,
      ((fun a b : ℚ => decide (a ≤ b)) a b || (fun a b : ℚ => decide (a ≤ b)) b a) = true := by
    intro a b
    simp only [Bool.or_eq_true, decide_eq_true_eq]
    exact le_total a b
  have h := List.sorted_mergeSort htrans htotal l
  exact h.imp (fun hab => of_decide_eq_true hab)

/-- C4: the error-pattern classifier returns exactly one of five labels:
"none" iff there are no failures, "all_rate_limited" iff every failure is
block-type, "mostly_rate_limited" iff the block fraction exceeds 0.8 without
reaching 100%, "mixed_with_rate_limiting" iff the fraction lies between 0.5
and 0.8 (inclusive), and "other_errors" iff the fraction is below 0.5. -/
theorem analyze_error_pattern_spec :
    ∀ failed : List FailureRecord,
      (analyze_error_pattern failed = "none" ↔ failed = []) ∧
      (analyze_error_pattern failed = "all_rate_limited" ↔
        failed ≠ [] ∧ http406Count failed = failed.length) ∧
      (analyze_error_pattern failed = "mostly_rate_limited" ↔
        failed ≠ [] ∧ http406Count failed ≠ failed.length ∧
          (http406Count failed : ℚ) / failed.length > 8/10) ∧
      (analyze_error_pattern failed = "mixed_with_rate_limiting" ↔
        failed ≠ [] ∧ (1/2 : ℚ) ≤ (http406Count failed : ℚ) / failed.length ∧
          (http406Count failed : ℚ) / failed.length ≤ 8/10) ∧
      (analyze_error_pattern failed = "other_errors" ↔
        failed ≠ [] ∧ (http406Count failed : ℚ) / failed.length < 1/2) ∧
      (analyze_error_pattern failed = "none" ∨
       analyze_error_pattern failed = "all_rate_limited" ∨
       analyze_error_pattern failed = "mostly_rate_limited" ∨
       analyze_error_pattern failed = "mixed_with_rate_limiting" ∨
       analyze_error_pattern failed = "other_errors") := by
  intro failed
  by_cases hemp : failed = []
  · subst hemp
    exact ⟨by simp [analyze_error_pattern],
      iff_of_false (by decide) (by simp),
      iff_of_false (by decide) (by simp),
      iff_of_false (by decide) (by simp),
      iff_of_false (by decide) (by simp),
      Or.inl rfl⟩
  · have hn : 0 < failed.length := List.length_pos.mpr hemp
    have hn0 : ((failed.length : ℚ)) ≠ 0 := by
      exact_mod_cast Nat.pos_iff_ne_zero.mp hn
    have hie : failed.isEmpty = false := by cases failed <;> simp_all
    have hk_le : http406Count failed ≤ failed.length := List.countP_le_length _
    simp only [analyze_error_pattern, hie, Bool.false_eq_true, if_false]
    split_ifs with h0 hkn h8 h5
    · refine ⟨iff_of_false (by decide) hemp, ?_, ?_, ?_, ?_, ?_⟩
      · exact iff_of_false (by decide) (by rintro ⟨_, hkn2⟩; omega)
      · refine iff_of_false (by decide) ?_
        rintro ⟨_, _, hgt⟩
        rw [h0] at hgt
        norm_num at hgt
      · refine iff_of_false (by decide) ?_
        rintro ⟨_, hge, _⟩
        rw [h0] at hge
        norm_num at hge
      · refine iff_of_true rfl ⟨hemp, ?_⟩
        rw [h0]
        norm_num
      · exact Or.inr (Or.inr (Or.inr (Or.inr rfl)))
    · have hfr : (http406Count failed : ℚ) / failed.length = 1 := by
        rw [hkn]
        exact div_self hn0
      refine ⟨iff_of_false (by decide) hemp,
        iff_of_true rfl ⟨hemp, hkn⟩, ?_, ?_, ?_, Or.inr (Or.inl rfl)⟩
      · exact iff_of_false (by decide) (by rintro ⟨_, hne, _⟩; exact hne hkn)
      · refine iff_of_false (by decide) ?_
        rintro ⟨_, _, hle⟩
        rw [hfr] at hle
        norm_num at hle
      · refine iff_of_false (by decide) ?_
        rintro ⟨_, hlt⟩
        rw [hfr] at hlt
        norm_num at hlt
    · refine ⟨iff_of_false (by decide) hemp, ?_,
        iff_of_true rfl ⟨hemp, hkn, h8⟩, ?_, ?_, Or.inr (Or.inr (Or.inl rfl))⟩
      · exact iff_of_false (by decide) (by rintro ⟨_, hk⟩; exact hkn hk)
      · refine iff_of_false (by decide) ?_
        rintro ⟨_, _, hle⟩
        linarith
      · refine iff_of_false (by decide) ?_
        rintro ⟨_, hlt⟩
        linarith
    · refine ⟨iff_of_false (by decide) hemp, ?_, ?_,
        iff_of_true rfl ⟨hemp, h5, not_lt.mp h8⟩, ?_,
        Or.inr (Or.inr (Or.inr (Or.inl rfl)))⟩
      · refine iff_of_false (by decide) ?_
        rintro ⟨_, hk⟩
        apply h8
        rw [hk, div_self hn0]
        norm_num
      · exact iff_of_false (by decide) (by rintro ⟨_, _, hgt⟩; exact h8 hgt)
      · refine iff_of_false (by decide) ?_
        rintro ⟨_, hlt⟩
        linarith
    · have hlt : (http406Count failed : ℚ) / failed.length < 1/2 := not_le.mp h5
      refine ⟨iff_of_false (by decide) hemp, ?_, ?_, ?_,
        iff_of_true rfl ⟨hemp, hlt⟩, Or.inr (Or.inr (Or.inr (Or.inr rfl)))⟩
      · refine iff_of_false (by decide) ?_
        rintro ⟨_, hk⟩
        rw [hk, div_self hn0] at hlt
        norm_num at hlt
      · refine iff_of_false (by decide) ?_
        rintro ⟨_, _, hgt⟩
        linarith
      · refine iff_of_false (by decide) ?_
        rintro ⟨_, hge, _⟩
        linarith

/-- C5: the "likely globally rate-limited" flag is true exactly when more
than half of the failures are block-type, or there are at least three
failures and every pair of them lies within a 2-minute (120 s) window; in
particular it is false for the empty list. -/
theorem is_likely_rate_limited_spec :
    ∀ failed : List FailureRecord,
      (is_likely_rate_limited failed = true ↔
        ((http406Count failed : ℚ) / failed.length > 1/2 ∨
         (3 ≤ failed.length ∧
           ∀ f ∈ failed, ∀ g ∈ failed, f.timestamp - g.timestamp < 120))) ∧
      is_likely_rate_limited [] = false := by
  intro failed
  refine ⟨?_, rfl⟩
  by_cases hemp : failed = []
  · subst hemp
    simp [is_likely_rate_limited, http406Count]
  · have hie : failed.isEmpty = false := by cases failed <;> simp_all
    simp only [is_likely_rate_limited, hie, Bool.false_eq_true, if_false]
    split_ifs with h1 h3 hspan
    · exact iff_of_true rfl (Or.inl h1)
    · refine iff_of_true rfl (Or.inr ⟨h3, ?_⟩)
      intro f hf g hg
      have hsorted := mergeSort_rat_sorted (failed.map FailureRecord.timestamp)
      have hfmem : f.timestamp ∈
          (failed.map FailureRecord.timestamp).mergeSort (fun a b => decide (a ≤ b)) :=
        List.mem_mergeSort.mpr (List.mem_map_of_mem FailureRecord.timestamp hf)
      have hgmem : g.timestamp ∈
          (failed.map FailureRecord.timestamp).mergeSort (fun a b => decide (a ≤ b)) :=
        List.mem_mergeSort.mpr (List.mem_map_of_mem FailureRecord.timestamp hg)
      have hfle := le_getLastD_of_sorted _ 0 hsorted _ hfmem
      have hgge := headD_le_of_sorted _ 0 hsorted _ hgmem
      linarith
    · refine iff_of_false (by simp) ?_
      rintro (hgt | ⟨_, hwin⟩)
      · exact h1 hgt
      · have hne : (failed.map FailureRecord.timestamp).mergeSort
            (fun a b => decide (a ≤ b)) ≠ [] := by
          apply List.ne_nil_of_length_pos
          rw [List.length_mergeSort, List.length_map]
          omega
        obtain ⟨fl, hfl, hfleq⟩ := List.mem_map.mp
          (List.mem_mergeSort.mp (getLastD_mem_of_ne_nil _ 0 hne))
        obtain ⟨fh, hfh, hfheq⟩ := List.mem_map.mp
          (List.mem_mergeSort.mp (headD_mem_of_ne_nil _ 0 hne))
        have hlt := hwin fl hfl fh hfh
        rw [hfleq, hfheq] at hlt
        exact hspan hlt
    · refine iff_of_false (by simp) ?_
      rintro (hgt | ⟨h3c, _⟩)
      · exact h1 hgt
      · exact h3 h3c

end RPScrape
